import Mathlib

/-!
Verification development for the n8n Infura node (htadashi/n8n).

The development shallowly embeds the node's glue code:
  * `validateJSON` and the five JSON-RPC request builders of
    `packages/nodes-base/nodes/Infura/GenericFunctions.ts`,
  * the `execute` dispatcher and the `loadOptions` methods of
    `packages/nodes-base/nodes/Infura/Infura.node.ts` (namespace-free,
    the "main" revision),
  * `infuraApiRequest`/`getNonce` and the corresponding `execute`
    dispatcher of an earlier revision (namespace `NodeRpc`),
  * the oldest revision's unauthenticated builders and its `execute`
    (namespace `NodeOld`),
  * `getContractInputs` and the contract-input defaulting of the
    provider-library revision (namespace `NodeProvider`).

External collaborators (`JSON.parse`, the `ethers` library, the HTTP
transport `this.helpers.request`, the host's parameter store) are
modelled as explicit parameters; every HTTP request the code would
issue is collected in a trace list so that "no network call" claims
are about the trace.
-/

/-- JSON values, as produced by `JSON.parse`.  Numbers are restricted to
integers, which is all the embedded code ever manipulates. -/
inductive Json where
  | null
  | bool (b : Bool)
  | num (n : Int)
  | str (s : String)
  | arr (xs : List Json)
  | obj (fields : List (String × Json))
deriving Repr

/-- Member access `j.k` on a parsed JSON object; a missing member (JS
`undefined`) is modelled by `Json.null`. -/
def Json.field (j : Json) (k : String) : Json :=
  match j with
  | .obj fields => (fields.lookup k).getD .null
  | _ => .null

/-- The strict equality test `j === "s"` of a JS value against a string
literal, as used by the ABI introspection code. -/
def Json.isStr (j : Json) (s : String) : Bool :=
  match j with
  | .str t => t = s
  | _ => false

/-- The runtime content behind the TypeScript cast `as string`; node
parameters of string type are delivered as strings by the host. -/
def Json.asString : Json → String
  | .str s => s
  | _ => ""

/-- The runtime content behind the TypeScript cast `as number`. -/
def Json.asInt : Json → Int
  | .num n => n
  | _ => 0

/-- The runtime content behind the TypeScript cast `as boolean`. -/
def Json.asBool : Json → Bool
  | .bool b => b
  | _ => false

/-- The element list of a JSON array (the values `forEach` iterates
over); only array-shaped values are ever iterated by the claims. -/
def Json.elems : Json → List Json
  | .arr xs => xs
  | _ => []

/-- Standard base64 alphabet. -/
def base64Char (n : Nat) : Char :=
  "ABCDEFGHIJKLMNOPQRSTUVWXYZabcdefghijklmnopqrstuvwxyz0123456789+/".toList.getD n '='

/-- Base64-encode a byte list, three bytes at a time, with padding. -/
def base64Chunks : List Nat → List Char
  | [] => []
  | [b1] => [base64Char (b1 / 4), base64Char ((b1 % 4) * 16), '=', '=']
  | [b1, b2] => [base64Char (b1 / 4), base64Char ((b1 % 4) * 16 + b2 / 16),
      base64Char ((b2 % 16) * 4), '=']
  | b1 :: b2 :: b3 :: rest =>
      base64Char (b1 / 4) :: base64Char ((b1 % 4) * 16 + b2 / 16) ::
      base64Char ((b2 % 16) * 4 + b3 / 64) :: base64Char (b3 % 64) :: base64Chunks rest

/-- Embeds `Buffer.from(s).toString('base64')`: base64 over the UTF-8
bytes of `s`. -/
def base64 (s : String) : String :=
  String.mk (base64Chunks (s.toUTF8.toList.map (·.toNat)))

/-- Value of a hexadecimal digit character, if any. -/
def hexDigitVal (c : Char) : Option Nat :=
  if '0' ≤ c ∧ c ≤ '9' then some (c.toNat - '0'.toNat)
  else if 'a' ≤ c ∧ c ≤ 'f' then some (c.toNat - 'a'.toNat + 10)
  else if 'A' ≤ c ∧ c ≤ 'F' then some (c.toNat - 'A'.toNat + 10)
  else none

/-- Accumulate the longest leading run of hex digits; `none` when there is
no digit at all (JS `NaN`). -/
def hexDigitsAcc : List Char → Nat → Bool → Option Nat
  | [], acc, seen => if seen then some acc else none
  | c :: cs, acc, seen =>
      match hexDigitVal c with
      | some d => hexDigitsAcc cs (acc * 16 + d) true
      | none => if seen then some acc else none

/-- Drop an optional `0x`/`0X` marker, as `parseInt(_, 16)` does. -/
def stripHex0x : List Char → List Char
  | '0' :: 'x' :: cs => cs
  | '0' :: 'X' :: cs => cs
  | cs => cs

/-- Embeds `parseInt(s, 16)`: skip whitespace, optional sign, optional
`0x` marker, then read the longest hex-digit run; `none` models `NaN`. -/
def jsParseInt16 (s : String) : Option Int :=
  let cs := s.toList.dropWhile (fun c => c = ' ' ∨ c = '\t' ∨ c = '\n' ∨ c = '\r')
  match cs with
  | '-' :: rest => (hexDigitsAcc (stripHex0x rest) 0 false).map (fun n => -(n : Int))
  | '+' :: rest => (hexDigitsAcc (stripHex0x rest) 0 false).map (fun n => (n : Int))
  | rest => (hexDigitsAcc (stripHex0x rest) 0 false).map (fun n => (n : Int))

/-- Embeds `parseInt(response.result, 16)` where `response.result` is a
JSON value; the RPC results decoded this way are hex strings. -/
def jsParseInt16OfJson (j : Json) : Option Int :=
  match j with
  | .str s => jsParseInt16 s
  | _ => none

/-- The `{name, value}` records pushed into `loadOptions` choice lists
(`INodePropertyOptions`). -/
structure PropertyOption where
  name : Json
  value : Json
deriving Repr

/-- The `InfuraAPI` credentials record (see the credential descriptor:
its node-facing field is `projectSecret`; the project id is a node
parameter). -/
structure Credentials where
  projectSecret : String
deriving Repr

/-- An HTTP request handed to `this.helpers.request` (`OptionsWithUri`):
the fields the embedded code sets. `auth` is the `{user, pass}` basic
authentication pair. -/
structure HttpRequest where
  method : String
  qs : Json
  body : Json
  uri : String
  headers : List (String × String)
  auth : Option (String × String)
  json : Bool
deriving Repr

/-- Errors the embedded code can raise:
`Error('Invalid JSON')`, `NodeOperationError(_, 'No credentials got
returned!')`, and `NodeApiError` wrapping a triggering error. -/
inductive ExecErr where
  | invalidJSON
  | noCredentials
  | apiError (cause : ExecErr)
deriving DecidableEq, Repr

/-- An opaque `ethers` wallet handle. -/
structure Wallet where
  key : String
deriving Repr

/-- The transaction record assembled before signing (`tx` in the
`eth_sendRawTransaction` branches).  `nonce` is whatever value the code
puts there (the raw RPC response in the main revision, the literal `0`
in the oldest one). -/
structure Tx where
  gasPrice : Int
  gasLimit : Int
  data : String
  «to» : String
  nonce : Json
deriving Repr

/-- The slice of the external `ethers` library the node calls, taken as
opaque total functions. -/
structure EthersLib where
  encodeFunctionData : Json → String → Option Json → String
  decodeFunctionResult : Json → String → Json → Json
  walletFromMnemonic : String → Wallet
  walletFromPrivateKey : String → Wallet
  signTransaction : Wallet → Tx → String

/-- The host-resolved node parameters: `getNodeParameter(name, itemIndex)`. -/
def Params : Type := String → Nat → Json

/-- The ambient collaborators of one `execute` invocation: the credential
store, the HTTP transport (mapping each issued request to its JSON
response), the external `JSON.parse`, and the `ethers` library. -/
structure World where
  credentials : Option Credentials
  transport : HttpRequest → Json
  jsonParse : String → Except String Json
  ethers : EthersLib

/-- Embeds `validateJSON` of `GenericFunctions.ts`: `JSON.parse` inside
`try`/`catch`, returning the `undefined` sentinel (`none`) on any parse
failure.  An absent argument is coerced by `JSON.parse` to the string
`"undefined"`. -/
def validateJSON (parse : String → Except String Json) : Option String → Option Json
  | some s => match parse s with | .ok v => some v | .error _ => none
  | none => match parse "undefined" with | .ok v => some v | .error _ => none

/-- Embeds `validateJSON` applied to a node parameter value (`as any`):
JSON-typed node parameters are delivered as strings by the host. -/
def validateJSONval (parse : String → Except String Json) (v : Json) : Option Json :=
  match v with
  | .str s => validateJSON parse (some s)
  | _ => none

/-- The endpoint template `https://${ETHNetwork}.infura.io/v3/${ProjectID}`. -/
def infuraUri (network projectID : String) : String :=
  "https://" ++ network ++ ".infura.io/v3/" ++ projectID

/-- Follows the spec's words: the JSON-RPC 2.0 request envelope
`{method, id: 1, jsonrpc: "2.0", params}`. -/
def rpcEnvelope (m : String) (ps : List Json) : Json :=
  .obj [("method", .str m), ("id", .num 1), ("jsonrpc", .str "2.0"), ("params", .arr ps)]

/-- Embeds `ethCallRequest` of `GenericFunctions.ts`: credentials check,
then a POST of the `eth_call` envelope with an `Authorization: Basic
base64(projectSecret)` header.  Returns the transport's response and the
trace of issued requests. -/
def ethCallRequest (creds : Option Credentials) (transport : HttpRequest → Json)
    (ETHNetwork ProjectID smartContractAddress walletAddress data : String) :
    Except ExecErr Json × List HttpRequest :=
  match creds with
  | none => (.error .noCredentials, [])
  | some credentials =>
      let body : Json := .obj [("method", .str "eth_call"), ("id", .num 1),
        ("jsonrpc", .str "2.0"),
        ("params", .arr [
          .obj [("to", .str smartContractAddress), ("from", .str walletAddress),
            ("data", .str data)],
          .str "latest"])]
      let basicAuthKey := base64 credentials.projectSecret
      let options : HttpRequest :=
        { method := "POST", qs := .obj [], body := body,
          uri := infuraUri ETHNetwork ProjectID,
          headers := [("Authorization", "Basic " ++ basicAuthKey)],
          auth := none, json := true }
      (.ok (transport options), [options])

/-- Embeds `ethSendRawTransaction` of `GenericFunctions.ts`. -/
def ethSendRawTransaction (creds : Option Credentials) (transport : HttpRequest → Json)
    (ETHNetwork ProjectID signedTransaction : String) :
    Except ExecErr Json × List HttpRequest :=
  match creds with
  | none => (.error .noCredentials, [])
  | some credentials =>
      let body : Json := .obj [("method", .str "eth_sendRawTransaction"), ("id", .num 1),
        ("jsonrpc", .str "2.0"), ("params", .arr [.str signedTransaction])]
      let basicAuthKey := base64 credentials.projectSecret
      let options : HttpRequest :=
        { method := "POST", qs := .obj [], body := body,
          uri := infuraUri ETHNetwork ProjectID,
          headers := [("Authorization", "Basic " ++ basicAuthKey)],
          auth := none, json := true }
      (.ok (transport options), [options])

/-- Embeds `ethGetTransactionCount` of `GenericFunctions.ts`; the `tag`
argument defaults to `"pending"` as in the source. -/
def ethGetTransactionCount (creds : Option Credentials) (transport : HttpRequest → Json)
    (ETHNetwork ProjectID address : String) (tag : String := "pending") :
    Except ExecErr Json × List HttpRequest :=
  match creds with
  | none => (.error .noCredentials, [])
  | some credentials =>
      let body : Json := .obj [("method", .str "eth_getTransactionCount"), ("id", .num 1),
        ("jsonrpc", .str "2.0"), ("params", .arr [.str address, .str tag])]
      let basicAuthKey := base64 credentials.projectSecret
      let options : HttpRequest :=
        { method := "POST", qs := .obj [], body := body,
          uri := infuraUri ETHNetwork ProjectID,
          headers := [("Authorization", "Basic " ++ basicAuthKey)],
          auth := none, json := true }
      (.ok (transport options), [options])

/-- Embeds `ethBlockNumber` of `GenericFunctions.ts`. -/
def ethBlockNumber (creds : Option Credentials) (transport : HttpRequest → Json)
    (ETHNetwork ProjectID : String) :
    Except ExecErr Json × List HttpRequest :=
  match creds with
  | none => (.error .noCredentials, [])
  | some credentials =>
      let body : Json := .obj [("method", .str "eth_blockNumber"), ("id", .num 1),
        ("jsonrpc", .str "2.0"), ("params", .arr [])]
      let basicAuthKey := base64 credentials.projectSecret
      let options : HttpRequest :=
        { method := "POST", qs := .obj [], body := body,
          uri := infuraUri ETHNetwork ProjectID,
          headers := [("Authorization", "Basic " ++ basicAuthKey)],
          auth := none, json := true }
      (.ok (transport options), [options])

/-- Embeds `ethGetBlockByNumber` of `GenericFunctions.ts`. -/
def ethGetBlockByNumber (creds : Option Credentials) (transport : HttpRequest → Json)
    (ETHNetwork ProjectID : String) (blockNumber : Int) (showTransactionDetails : Bool) :
    Except ExecErr Json × List HttpRequest :=
  match creds with
  | none => (.error .noCredentials, [])
  | some credentials =>
      let body : Json := .obj [("method", .str "eth_getBlockByNumber"), ("id", .num 1),
        ("jsonrpc", .str "2.0"),
        ("params", .arr [.num blockNumber, .bool showTransactionDetails])]
      let basicAuthKey := base64 credentials.projectSecret
      let options : HttpRequest :=
        { method := "POST", qs := .obj [], body := body,
          uri := infuraUri ETHNetwork ProjectID,
          headers := [("Authorization", "Basic " ++ basicAuthKey)],
          auth := none, json := true }
      (.ok (transport options), [options])

/-- The flattening push at the end of each loop iteration:
`Array.isArray(responseData)` spreads an array element-wise, anything
else (including the still-`undefined` initial value, modelled `none`)
is pushed as a single record. -/
def pushResponse (returnData : List (Option Json)) (responseData : Option Json) :
    List (Option Json) :=
  match responseData with
  | some (.arr xs) => returnData ++ xs.map some
  | r => returnData ++ [r]

/-- One iteration of the per-item loop of `execute` in `Infura.node.ts`.
The source dispatches with independent `if` statements over mutually
exclusive operation strings; they are embedded as an exclusive chain.
`responseData` is the loop-carried variable declared outside the loop;
the returned value is its content after the iteration. -/
def executeItemMain (w : World) (params : Params)
    (operation ETHNetwork projectID walletAddress : String)
    (i : Nat) (responseData : Option Json) :
    Except ExecErr (Option Json) × List HttpRequest :=
  if operation = "eth_blockNumber" then
    match ethBlockNumber w.credentials w.transport ETHNetwork projectID with
    | (.error e, reqs) => (.error e, reqs)
    | (.ok response, reqs) =>
        let decodedData := jsParseInt16OfJson (response.field "result")
        (.ok (some (.obj [("decodedData",
          match decodedData with | some n => .num n | none => .null)])), reqs)
  else if operation = "eth_getBlockByNumber" then
    let blockNumber := (params "blockNumber" i).asInt
    let showTransactionDetails := (params "showTransactionDetails" i).asBool
    match ethGetBlockByNumber w.credentials w.transport ETHNetwork projectID
        blockNumber showTransactionDetails with
    | (.error e, reqs) => (.error e, reqs)
    | (.ok response, reqs) => (.ok (some response), reqs)
  else if operation = "eth_call" then
    let contractAddress := (params "contractAddress" 0).asString
    let contractMethod := (params "contractMethod" i).asString
    let contractInputs := params "contractInputs" i
    match validateJSON w.jsonParse (some ((params "contractABI" 0).asString)) with
    | none => (.error .invalidJSON, [])
    | some ABIjson =>
        let data := w.ethers.encodeFunctionData ABIjson contractMethod
          (validateJSONval w.jsonParse contractInputs)
        match ethCallRequest w.credentials w.transport ETHNetwork projectID
            contractAddress walletAddress data with
        | (.error e, reqs) => (.error e, reqs)
        | (.ok response, reqs) =>
            let decodedData :=
              w.ethers.decodeFunctionResult ABIjson contractMethod (response.field "result")
            (.ok (some (.obj [("decodedData", decodedData)])), reqs)
  else if operation = "eth_sendRawTransaction" then
    let contractAddress := (params "contractAddress" 0).asString
    let accessWalletByMnemonic := (params "accessWalletByMnemonic" i).asBool
    let wallet :=
      if accessWalletByMnemonic then
        w.ethers.walletFromMnemonic ((params "walletMnemonic" i).asString)
      else
        w.ethers.walletFromPrivateKey ((params "walletPrivateKey" i).asString)
    let contractMethod := (params "contractMethod" i).asString
    let contractInputs := params "contractInputs" i
    match validateJSON w.jsonParse (some ((params "contractABI" 0).asString)) with
    | none => (.error .invalidJSON, [])
    | some ABIjson =>
        let data := w.ethers.encodeFunctionData ABIjson contractMethod
          (validateJSONval w.jsonParse contractInputs)
        let gasPrice := (params "gasPrice" i).asInt
        let gasLimit := (params "gasLimit" i).asInt
        match ethGetTransactionCount w.credentials w.transport ETHNetwork projectID
            walletAddress with
        | (.error e, reqs1) => (.error e, reqs1)
        | (.ok nonce, reqs1) =>
            let tx : Tx :=
              { gasPrice := gasPrice, gasLimit := gasLimit, data := data,
                «to» := contractAddress, nonce := nonce }
            let signedTransaction := w.ethers.signTransaction wallet tx
            match ethSendRawTransaction w.credentials w.transport ETHNetwork projectID
                signedTransaction with
            | (.error e, reqs2) => (.error e, reqs1 ++ reqs2)
            | (.ok response, reqs2) =>
                let decodedData :=
                  w.ethers.decodeFunctionResult ABIjson contractMethod
                    (response.field "result")
                (.ok (some (.obj [("decodedData", decodedData)])), reqs1 ++ reqs2)
  else if operation = "eth_getTransactionCount" then
    match ethGetTransactionCount w.credentials w.transport ETHNetwork projectID
        walletAddress with
    | (.error e, reqs) => (.error e, reqs)
    | (.ok response, reqs) =>
        let decodedData := jsParseInt16OfJson (response.field "result")
        (.ok (some (.obj [("decodedData",
          match decodedData with | some n => .num n | none => .null)])), reqs)
  else
    (.ok responseData, [])

/-- The `for (let i = 0; i < length; i++)` loop of `execute` in
`Infura.node.ts`: `remaining` counts the items still to process, `i` is
the current index; a thrown error aborts the whole invocation.  The
trace of issued requests is accumulated alongside `returnData`. -/
def execLoopMain (w : World) (params : Params)
    (operation ETHNetwork projectID walletAddress : String) :
    Nat → Nat → Option Json → List (Option Json) → List HttpRequest →
    Except ExecErr (List (Option Json)) × List HttpRequest
  | _, 0, _, returnData, reqs => (.ok returnData, reqs)
  | i, remaining + 1, responseData, returnData, reqs =>
      match executeItemMain w params operation ETHNetwork projectID walletAddress
          i responseData with
      | (.error e, itemReqs) => (.error e, reqs ++ itemReqs)
      | (.ok rd, itemReqs) =>
          execLoopMain w params operation ETHNetwork projectID walletAddress
            (i + 1) remaining rd (pushResponse returnData rd) (reqs ++ itemReqs)

/-- Embeds `execute` of `Infura.node.ts`: the operation, network, project
id and wallet address are resolved once at item index 0, then every
input item is processed in order.  `items` is the input item count; the
result is the `returnData` collection (or the propagated error) together
with the trace of every HTTP request issued. -/
def executeMain (w : World) (params : Params) (items : Nat) :
    Except ExecErr (List (Option Json)) × List HttpRequest :=
  let operation := (params "operation" 0).asString
  let ETHNetwork := (params "ETHNetwork" 0).asString
  let projectID := (params "projectID" 0).asString
  let walletAddress := (params "walletAddress" 0).asString
  execLoopMain w params operation ETHNetwork projectID walletAddress 0 items none [] []

namespace NodeRpc

/-- Embeds `infuraApiRequest` of the earlier revision's
`GenericFunctions.ts`: the credentials check sits inside the `try`
block, so any failure (including the missing-credentials
`NodeOperationError`) is re-raised wrapped in a `NodeApiError`; on
success the given body is POSTed to the given uri with basic
authentication (empty user, project secret as password). -/
def infuraApiRequest (creds : Option Credentials) (transport : HttpRequest → Json)
    (body : Json) (uri : String) : Except ExecErr Json × List HttpRequest :=
  match creds with
  | none => (.error (.apiError .noCredentials), [])
  | some credentials =>
      let options : HttpRequest :=
        { method := "POST", qs := .obj [], body := body, uri := uri,
          headers := [], auth := some ("", credentials.projectSecret),
          json := true }
      (.ok (transport options), [options])

/-- Embeds `getNonce` of the earlier revision's `GenericFunctions.ts`:
credentials are checked before the `try` block (the missing-credentials
error propagates unwrapped), then an `eth_getTransactionCount` envelope
for the `latest` tag is POSTed with basic authentication. -/
def getNonce (creds : Option Credentials) (transport : HttpRequest → Json)
    (address uri : String) : Except ExecErr Json × List HttpRequest :=
  match creds with
  | none => (.error .noCredentials, [])
  | some credentials =>
      let body : Json := .obj [("method", .str "eth_getTransactionCount"), ("id", .num 1),
        ("jsonrpc", .str "2.0"), ("params", .arr [.str address, .str "latest"])]
      let options : HttpRequest :=
        { method := "POST", qs := .obj [], body := body, uri := uri,
          headers := [], auth := some ("", credentials.projectSecret),
          json := true }
      (.ok (transport options), [options])

/-- One iteration of the per-item loop of the earlier revision's
`execute` (the `infuraApiRequest`-based dispatcher).  Note that the
`eth_call` and `eth_getTransactionCount` branches re-resolve
`walletAddress` at the current item index `i`, shadowing the value read
at index 0. -/
def executeItem (w : World) (params : Params)
    (operation url walletAddress : String) (i : Nat) (responseData : Option Json) :
    Except ExecErr (Option Json) × List HttpRequest :=
  if operation = "eth_blockNumber" then
    let body : Json := .obj [("method", .str "eth_blockNumber"), ("id", .num 1),
      ("jsonrpc", .str "2.0"), ("params", .arr [])]
    match infuraApiRequest w.credentials w.transport body url with
    | (.error e, reqs) => (.error e, reqs)
    | (.ok response, reqs) =>
        let decodedData := jsParseInt16OfJson (response.field "result")
        (.ok (some (.obj [("decodedData",
          match decodedData with | some n => .num n | none => .null)])), reqs)
  else if operation = "eth_getBlockByNumber" then
    let blockNumber := (params "blockNumber" i).asInt
    let showTransactionDetails := (params "showTransactionDetails" i).asBool
    let body : Json := .obj [("method", .str "eth_getBlockByNumber"), ("id", .num 1),
      ("jsonrpc", .str "2.0"),
      ("params", .arr [.num blockNumber, .bool showTransactionDetails])]
    match infuraApiRequest w.credentials w.transport body url with
    | (.error e, reqs) => (.error e, reqs)
    | (.ok response, reqs) => (.ok (some response), reqs)
  else if operation = "eth_call" then
    let contractAddress := (params "contractAddress" 0).asString
    let walletAddressItem := (params "walletAddress" i).asString
    let contractMethod := (params "contractMethod" i).asString
    let contractInputs := params "contractInputs" i
    match validateJSON w.jsonParse (some ((params "contractABI" 0).asString)) with
    | none => (.error .invalidJSON, [])
    | some ABIjson =>
        let data := w.ethers.encodeFunctionData ABIjson contractMethod
          (validateJSONval w.jsonParse contractInputs)
        let body : Json := .obj [("method", .str "eth_call"), ("id", .num 1),
          ("jsonrpc", .str "2.0"),
          ("params", .arr [
            .obj [("to", .str contractAddress), ("from", .str walletAddressItem),
              ("data", .str data)],
            .str "latest"])]
        match infuraApiRequest w.credentials w.transport body url with
        | (.error e, reqs) => (.error e, reqs)
        | (.ok response, reqs) =>
            let decodedData :=
              w.ethers.decodeFunctionResult ABIjson contractMethod (response.field "result")
            (.ok (some (.obj [("decodedData", decodedData)])), reqs)
  else if operation = "eth_sendRawTransaction" then
    let contractAddress := (params "contractAddress" 0).asString
    let accessWalletByMnemonic := (params "accessWalletByMnemonic" i).asBool
    let wallet :=
      if accessWalletByMnemonic then
        w.ethers.walletFromMnemonic ((params "walletMnemonic" i).asString)
      else
        w.ethers.walletFromPrivateKey ((params "walletPrivateKey" i).asString)
    let contractMethod := (params "contractMethod" i).asString
    let contractInputs := params "contractInputs" i
    match validateJSON w.jsonParse (some ((params "contractABI" 0).asString)) with
    | none => (.error .invalidJSON, [])
    | some ABIjson =>
        let data := w.ethers.encodeFunctionData ABIjson contractMethod
          (validateJSONval w.jsonParse contractInputs)
        let gasPrice := (params "gasPrice" i).asInt
        let gasLimit := (params "gasLimit" i).asInt
        match getNonce w.credentials w.transport walletAddress url with
        | (.error e, reqs1) => (.error e, reqs1)
        | (.ok nonce, reqs1) =>
            let tx : Tx :=
              { gasPrice := gasPrice, gasLimit := gasLimit, data := data,
                «to» := contractAddress, nonce := nonce }
            let signedTransaction := w.ethers.signTransaction wallet tx
            let body : Json := .obj [("method", .str "eth_sendRawTransaction"),
              ("id", .num 1), ("jsonrpc", .str "2.0"),
              ("params", .arr [.str signedTransaction])]
            match infuraApiRequest w.credentials w.transport body url with
            | (.error e, reqs2) => (.error e, reqs1 ++ reqs2)
            | (.ok response, reqs2) =>
                let decodedData :=
                  w.ethers.decodeFunctionResult ABIjson contractMethod
                    (response.field "result")
                (.ok (some (.obj [("decodedData", decodedData)])), reqs1 ++ reqs2)
  else if operation = "eth_getTransactionCount" then
    let walletAddressItem := (params "walletAddress" i).asString
    let transactionTag := (params "transactionTag" i).asString
    let body : Json := .obj [("method", .str "eth_getTransactionCount"), ("id", .num 1),
      ("jsonrpc", .str "2.0"),
      ("params", .arr [.str walletAddressItem, .str transactionTag])]
    match infuraApiRequest w.credentials w.transport body url with
    | (.error e, reqs) => (.error e, reqs)
    | (.ok response, reqs) =>
        let decodedData := jsParseInt16OfJson (response.field "result")
        (.ok (some (.obj [("decodedData",
          match decodedData with | some n => .num n | none => .null)])), reqs)
  else
    (.ok responseData, [])

/-- The per-item loop of the earlier revision's `execute`. -/
def execLoop (w : World) (params : Params) (operation url walletAddress : String) :
    Nat → Nat → Option Json → List (Option Json) → List HttpRequest →
    Except ExecErr (List (Option Json)) × List HttpRequest
  | _, 0, _, returnData, reqs => (.ok returnData, reqs)
  | i, remaining + 1, responseData, returnData, reqs =>
      match executeItem w params operation url walletAddress i responseData with
      | (.error e, itemReqs) => (.error e, reqs ++ itemReqs)
      | (.ok rd, itemReqs) =>
          execLoop w params operation url walletAddress
            (i + 1) remaining rd (pushResponse returnData rd) (reqs ++ itemReqs)

/-- Embeds the earlier revision's `execute`: the url
`https://${ETHNetwork}.infura.io/v3/${projectID}` is computed once from
the item-0 network and project id, and `walletAddress` is also read at
index 0 (but shadowed per item inside two branches). -/
def execute (w : World) (params : Params) (items : Nat) :
    Except ExecErr (List (Option Json)) × List HttpRequest :=
  let operation := (params "operation" 0).asString
  let ETHNetwork := (params "ETHNetwork" 0).asString
  let projectID := (params "projectID" 0).asString
  let url := infuraUri ETHNetwork projectID
  let walletAddress := (params "walletAddress" 0).asString
  execLoop w params operation url walletAddress 0 items none [] []

end NodeRpc

namespace NodeOld

/-- Embeds `ethCallRequest` of the oldest revision's
`GenericFunctions.ts`: no credentials check and no authentication
(`headers: {}`); the `eth_call` envelope is POSTed directly. -/
def ethCallRequest (transport : HttpRequest → Json)
    (ETHNetwork ProjectID smartContractAddress walletAddress data : String) :
    Except ExecErr Json × List HttpRequest :=
  let body : Json := .obj [("method", .str "eth_call"), ("id", .num 1),
    ("jsonrpc", .str "2.0"),
    ("params", .arr [
      .obj [("to", .str smartContractAddress), ("from", .str walletAddress),
        ("data", .str data)],
      .str "latest"])]
  let options : HttpRequest :=
    { method := "POST", qs := .obj [], body := body,
      uri := infuraUri ETHNetwork ProjectID,
      headers := [], auth := none, json := true }
  (.ok (transport options), [options])

/-- Embeds `ethSendRawTransaction` of the oldest revision's
`GenericFunctions.ts` (no credentials check, no authentication). -/
def ethSendRawTransaction (transport : HttpRequest → Json)
    (ETHNetwork ProjectID signedTransaction : String) :
    Except ExecErr Json × List HttpRequest :=
  let body : Json := .obj [("method", .str "eth_sendRawTransaction"), ("id", .num 1),
    ("jsonrpc", .str "2.0"), ("params", .arr [.str signedTransaction])]
  let options : HttpRequest :=
    { method := "POST", qs := .obj [], body := body,
      uri := infuraUri ETHNetwork ProjectID,
      headers := [], auth := none, json := true }
  (.ok (transport options), [options])

/-- One iteration of the per-item loop of the oldest revision's
`execute` (operations `eth_call` and `eth_sendRawTransaction` only).
In the `eth_sendRawTransaction` branch the `gasPrice` and `gasLimit`
parameters are read but ignored: the transaction is built with the
hard-coded constants `gasPrice: 2000000000`, `gasLimit: 185000` and
`nonce: 0`, and `responseData` is never reassigned. -/
def executeItem (w : World) (params : Params)
    (operation ETHNetwork projectID contractAddress walletAddress : String)
    (i : Nat) (responseData : Option Json) :
    Except ExecErr (Option Json) × List HttpRequest :=
  if operation = "eth_call" then
    let contractMethod := (params "contractMethod" i).asString
    let contractInputs := params "contractInputs" i
    match validateJSON w.jsonParse (some ((params "contractABI" 0).asString)) with
    | none => (.error .invalidJSON, [])
    | some ABIjson =>
        let data := w.ethers.encodeFunctionData ABIjson contractMethod
          (validateJSONval w.jsonParse contractInputs)
        match ethCallRequest w.transport ETHNetwork projectID contractAddress
            walletAddress data with
        | (.error e, reqs) => (.error e, reqs)
        | (.ok response, reqs) =>
            let decodedData :=
              w.ethers.decodeFunctionResult ABIjson contractMethod (response.field "result")
            (.ok (some (.obj [("decodedData", decodedData)])), reqs)
  else if operation = "eth_sendRawTransaction" then
    let accessWalletByMnemonic := (params "accessWalletByMnemonic" i).asBool
    let wallet :=
      if accessWalletByMnemonic then
        w.ethers.walletFromMnemonic ((params "walletMnemonic" i).asString)
      else
        w.ethers.walletFromPrivateKey ((params "walletPrivateKey" i).asString)
    let contractMethod := (params "contractMethod" i).asString
    let contractInputs := params "contractInputs" i
    match validateJSON w.jsonParse (some ((params "contractABI" 0).asString)) with
    | none => (.error .invalidJSON, [])
    | some ABIjson =>
        let data := w.ethers.encodeFunctionData ABIjson contractMethod
          (validateJSONval w.jsonParse contractInputs)
        let _gasPriceParam := (params "gasPrice" i).asString
        let _gasLimitParam := params "gasLimit" i
        let tx : Tx :=
          { gasPrice := 2000000000, gasLimit := 185000, data := data,
            «to» := contractAddress, nonce := .num 0 }
        let signedTransaction := w.ethers.signTransaction wallet tx
        match ethSendRawTransaction w.transport ETHNetwork projectID
            signedTransaction with
        | (.error e, reqs) => (.error e, reqs)
        | (.ok _response, reqs) => (.ok responseData, reqs)
  else
    (.ok responseData, [])

/-- The per-item loop of the oldest revision's `execute`. -/
def execLoop (w : World) (params : Params)
    (operation ETHNetwork projectID contractAddress walletAddress : String) :
    Nat → Nat → Option Json → List (Option Json) → List HttpRequest →
    Except ExecErr (List (Option Json)) × List HttpRequest
  | _, 0, _, returnData, reqs => (.ok returnData, reqs)
  | i, remaining + 1, responseData, returnData, reqs =>
      match executeItem w params operation ETHNetwork projectID contractAddress
          walletAddress i responseData with
      | (.error e, itemReqs) => (.error e, reqs ++ itemReqs)
      | (.ok rd, itemReqs) =>
          execLoop w params operation ETHNetwork projectID contractAddress walletAddress
            (i + 1) remaining rd (pushResponse returnData rd) (reqs ++ itemReqs)

/-- Embeds the oldest revision's `execute`: operation, network, project
id, contract address and wallet address are all resolved at item
index 0. -/
def execute (w : World) (params : Params) (items : Nat) :
    Except ExecErr (List (Option Json)) × List HttpRequest :=
  let operation := (params "operation" 0).asString
  let ETHNetwork := (params "ETHNetwork" 0).asString
  let projectID := (params "projectID" 0).asString
  let contractAddress := (params "contractAddress" 0).asString
  let walletAddress := (params "walletAddress" 0).asString
  execLoop w params operation ETHNetwork projectID contractAddress walletAddress
    0 items none [] []

end NodeOld

/-- The `forEach` loop body of `getContractMethods` (identical in every
revision): push a `{name, value}` option for every ABI entry whose
`type` is `"function"`, in order, with no deduplication and no look at
`stateMutability`. -/
def functionOptions (json : Json) : List PropertyOption :=
  json.elems.foldl
    (fun returnData element =>
      if (element.field "type").isStr "function" then
        returnData ++ [{ name := element.field "name", value := element.field "name" }]
      else returnData)
    []

/-- Embeds the `getContractMethods` loadOptions method: parse the
`contractABI` parameter (item 0), throw `Invalid JSON` on failure, then
collect the function-entry options. -/
def getContractMethods (parse : String → Except String Json) (params : Params) :
    Except ExecErr (List PropertyOption) :=
  match validateJSON parse (some ((params "contractABI" 0).asString)) with
  | none => .error .invalidJSON
  | some json => .ok (functionOptions json)

/-- First-occurrence-order deduplication worker. -/
def dedupStrGo : List String → List String → List String
  | [], _ => []
  | s :: rest, seen =>
      if s ∈ seen then dedupStrGo rest seen else s :: dedupStrGo rest (s :: seen)

/-- First-occurrence-order deduplication of a string list. -/
def dedupStr (l : List String) : List String :=
  dedupStrGo l []

/-- Follows the spec's words for the method listing with no filter: "the
ordered set of distinct names of the entries whose type is
function". -/
def specDistinctMethodNames (json : Json) : List String :=
  dedupStr
    ((json.elems.filter (fun e => (e.field "type").isStr "function")).map
      (fun e => (e.field "name").asString))

namespace NodeProvider

/-- The `forEach` loop body of `getContractInputs` (provider-library
revision): for every ABI entry whose `type` is `"function"` and whose
`name` equals the chosen method, push one option per entry of its
`inputs` array, in order. -/
def inputOptions (json : Json) (method : String) : List PropertyOption :=
  json.elems.foldl
    (fun returnData element =>
      if (element.field "type").isStr "function" && (element.field "name").isStr method then
        returnData ++ (element.field "inputs").elems.map
          (fun input => { name := input.field "name", value := input.field "name" })
      else returnData)
    []

/-- Embeds the `getContractInputs` loadOptions method: parse the
`contractABI` parameter (item 0), throw `Invalid JSON` on failure, read
the chosen `contractMethod` (item 0), then collect the input-name
options. -/
def getContractInputs (parse : String → Except String Json) (params : Params) :
    Except ExecErr (List PropertyOption) :=
  match validateJSON parse (some ((params "contractABI" 0).asString)) with
  | none => .error .invalidJSON
  | some json =>
      let method := (params "contractMethod" 0).asString
      .ok (inputOptions json method)

/-- JS truthiness test on the result of `validateJSON` (the condition
`!contractInputs`): `undefined`, `null`, `false`, `0` and the empty
string are falsy. -/
def jsFalsy : Option Json → Bool
  | none => true
  | some .null => true
  | some (.bool b) => !b
  | some (.num n) => n = 0
  | some (.str s) => s = ""
  | some _ => false

/-- Embeds the contract-input resolution of the provider-library
revision's `execute`:
`let contractInputs = validateJSON(getNodeParameter('contractInputs', i));
 if (!contractInputs) { contractInputs = []; }`. -/
def resolveContractInputs (parse : String → Except String Json) (raw : Json) : Json :=
  let contractInputs := validateJSONval parse raw
  if jsFalsy contractInputs then .arr [] else contractInputs.getD (.arr [])

end NodeProvider

/-- A fold that conditionally pushes one element is a filter-map. -/
theorem foldl_pushIf {α β : Type} (p : α → Bool) (f : α → β) :
    ∀ (l : List α) (acc : List β),
      l.foldl (fun a e => if p e then a ++ [f e] else a) acc =
        acc ++ (l.filter p).map f := by
  intro l
  induction l with
  | nil => intro acc; simp
  | cons e rest ih =>
      intro acc
      by_cases hp : p e <;> simp [List.filter_cons, hp, ih]

/-- A fold that conditionally appends a block is a filter-bind. -/
theorem foldl_appendIf {α β : Type} (p : α → Bool) (g : α → List β) :
    ∀ (l : List α) (acc : List β),
      l.foldl (fun a e => if p e then a ++ g e else a) acc =
        acc ++ (l.filter p).flatMap g := by
  intro l
  induction l with
  | nil => intro acc; simp
  | cons e rest ih =>
      intro acc
      by_cases hp : p e <;> simp [List.filter_cons, hp, ih]

/-- C2: for every string the external `JSON.parse` accepts, `validateJSON`
returns exactly the parsed value; for every string it rejects — including
the empty string — and for an absent argument (which `JSON.parse` coerces
to the unparsable string `"undefined"`), it returns the `undefined`
sentinel `none`.  Being a total function into `Option`, it raises no
exception by construction. -/
theorem validateJSON_spec (parse : String → Except String Json) :
    (∀ s v, parse s = .ok v → validateJSON parse (some s) = some v) ∧
    (∀ s e, parse s = .error e → validateJSON parse (some s) = none) ∧
    (∀ e, parse "undefined" = .error e → validateJSON parse none = none) := by
  refine ⟨?_, ?_, ?_⟩
  · intro s v h; simp [validateJSON, h]
  · intro s e h; simp [validateJSON, h]
  · intro e h; simp [validateJSON, h]

/-- A concrete parse function for evaluating `validateJSON`. -/
def parseOneList : String → Except String Json := fun s =>
  if s = "[1]" then .ok (.arr [.num 1]) else .error "unexpected token"

/-- Witness for C2 at concrete inputs. -/
theorem validateJSON_spec_witness :
    validateJSON parseOneList (some "[1]") = some (.arr [.num 1]) ∧
    validateJSON parseOneList (some "") = none ∧
    validateJSON parseOneList none = none :=
  ⟨(validateJSON_spec parseOneList).1 "[1]" (.arr [.num 1]) rfl,
   (validateJSON_spec parseOneList).2.1 "" "unexpected token" rfl,
   (validateJSON_spec parseOneList).2.2 "unexpected token" rfl⟩

/-- C10: an `execute` invocation with an empty input item list returns the
empty output collection, raises no error and issues no HTTP request —
for every world (in particular with no credentials and an always-failing
parser) and every parameter assignment, since all validation and
dispatch happens inside the per-item loop. -/
theorem executeMain_emptyItems (w : World) (params : Params) :
    executeMain w params 0 = (.ok [], []) := rfl

/-- C4: every request builder backing a network-requiring operation
(`eth_call`, `eth_sendRawTransaction`, `eth_getTransactionCount`,
`eth_blockNumber`, `eth_getBlockByNumber`, and the earlier revision's
`infuraApiRequest`/`getNonce`) raises the missing-credentials error when
the credential store resolves nothing, with an empty request trace: the
HTTP transport is never invoked.  In `infuraApiRequest` the error is
re-raised wrapped in a `NodeApiError`. -/
theorem missingCredentials_noRequest :
    (∀ transport net pid a b c,
        ethCallRequest none transport net pid a b c = (.error .noCredentials, [])) ∧
    (∀ transport net pid s,
        ethSendRawTransaction none transport net pid s = (.error .noCredentials, [])) ∧
    (∀ transport net pid addr tag,
        ethGetTransactionCount none transport net pid addr tag =
          (.error .noCredentials, [])) ∧
    (∀ transport net pid,
        ethBlockNumber none transport net pid = (.error .noCredentials, [])) ∧
    (∀ transport net pid bn std,
        ethGetBlockByNumber none transport net pid bn std =
          (.error .noCredentials, [])) ∧
    (∀ transport body uri,
        NodeRpc.infuraApiRequest none transport body uri =
          (.error (.apiError .noCredentials), [])) ∧
    (∀ transport addr uri,
        NodeRpc.getNonce none transport addr uri = (.error .noCredentials, [])) ∧
    (∀ (w : World) (params : Params) (items : Nat),
        w.credentials = none → 0 < items →
        (params "operation" 0).asString = "eth_blockNumber" →
        executeMain w params items = (.error .noCredentials, [])) ∧
    (∀ (w : World) (params : Params) (items : Nat),
        w.credentials = none → 0 < items →
        (params "operation" 0).asString = "eth_getBlockByNumber" →
        executeMain w params items = (.error .noCredentials, [])) ∧
    (∀ (w : World) (params : Params) (items : Nat),
        w.credentials = none → 0 < items →
        (params "operation" 0).asString = "eth_getTransactionCount" →
        executeMain w params items = (.error .noCredentials, [])) ∧
    (∀ (w : World) (params : Params) (items : Nat) (abi : Json),
        w.credentials = none → 0 < items →
        (params "operation" 0).asString = "eth_call" →
        w.jsonParse ((params "contractABI" 0).asString) = .ok abi →
        executeMain w params items = (.error .noCredentials, [])) ∧
    (∀ (w : World) (params : Params) (items : Nat) (abi : Json),
        w.credentials = none → 0 < items →
        (params "operation" 0).asString = "eth_sendRawTransaction" →
        w.jsonParse ((params "contractABI" 0).asString) = .ok abi →
        executeMain w params items = (.error .noCredentials, [])) := by
  refine ⟨?_, ?_, ?_, ?_, ?_, ?_, ?_, ?_, ?_, ?_, ?_, ?_⟩
  · intro transport net pid a b d; rfl
  · intro transport net pid s; rfl
  · intro transport net pid addr tag; rfl
  · intro transport net pid; rfl
  · intro transport net pid bn std; rfl
  · intro transport body uri; rfl
  · intro transport addr uri; rfl
  · intro w params items hcred hitems hop
    cases items with
    | zero => exact absurd hitems (by decide)
    | succ n =>
        simp only [executeMain, execLoopMain, executeItemMain, hop, hcred,
          ethBlockNumber]
        simp
  · intro w params items hcred hitems hop
    cases items with
    | zero => exact absurd hitems (by decide)
    | succ n =>
        simp only [executeMain, execLoopMain, executeItemMain, hop, hcred,
          ethGetBlockByNumber]
        rw [if_neg (by decide : ¬("eth_getBlockByNumber" = "eth_blockNumber"))]
        simp
  · intro w params items hcred hitems hop
    cases items with
    | zero => exact absurd hitems (by decide)
    | succ n =>
        simp only [executeMain, execLoopMain, executeItemMain, hop, hcred,
          ethGetTransactionCount]
        rw [if_neg (by decide : ¬("eth_getTransactionCount" = "eth_blockNumber")),
          if_neg (by decide : ¬("eth_getTransactionCount" = "eth_getBlockByNumber")),
          if_neg (by decide : ¬("eth_getTransactionCount" = "eth_call")),
          if_neg (by decide : ¬("eth_getTransactionCount" = "eth_sendRawTransaction"))]
        simp
  · intro w params items abi hcred hitems hop habi
    cases items with
    | zero => exact absurd hitems (by decide)
    | succ n =>
        simp only [executeMain, execLoopMain, executeItemMain, hop, hcred, habi,
          validateJSON, ethCallRequest]
        rw [if_neg (by decide : ¬("eth_call" = "eth_blockNumber")),
          if_neg (by decide : ¬("eth_call" = "eth_getBlockByNumber"))]
        simp
  · intro w params items abi hcred hitems hop habi
    cases items with
    | zero => exact absurd hitems (by decide)
    | succ n =>
        simp only [executeMain, execLoopMain, executeItemMain, hop, hcred, habi,
          validateJSON, ethGetTransactionCount]
        rw [if_neg (by decide : ¬("eth_sendRawTransaction" = "eth_blockNumber")),
          if_neg (by decide : ¬("eth_sendRawTransaction" = "eth_getBlockByNumber")),
          if_neg (by decide : ¬("eth_sendRawTransaction" = "eth_call"))]
        simp

/-- An `ethers` stand-in whose decode is the identity on the result. -/
def ethersDummy : EthersLib :=
  { encodeFunctionData := fun _ _ _ => "",
    decodeFunctionResult := fun _ _ r => r,
    walletFromMnemonic := fun s => { key := s },
    walletFromPrivateKey := fun s => { key := s },
    signTransaction := fun _ _ => "" }

/-- A world whose transport answers every request with `{"result":"0x10"}`. -/
def wBlockNumber : World :=
  { credentials := some { projectSecret := "sec" },
    transport := fun _ => .obj [("result", .str "0x10")],
    jsonParse := fun _ => .error "parse error",
    ethers := ethersDummy }

/-- Parameters selecting the `eth_blockNumber` operation. -/
def paramsBlockNumber : Params := fun name _ =>
  if name = "operation" then .str "eth_blockNumber"
  else if name = "ETHNetwork" then .str "mainnet"
  else if name = "projectID" then .str "pid"
  else .str ""

/-- A world whose transport answers every request with `{"result":"0x2a"}`. -/
def wTxCount : World :=
  { wBlockNumber with transport := fun _ => .obj [("result", .str "0x2a")] }

/-- Parameters selecting the `eth_getTransactionCount` operation. -/
def paramsTxCount : Params := fun name _ =>
  if name = "operation" then .str "eth_getTransactionCount"
  else if name = "ETHNetwork" then .str "mainnet"
  else if name = "projectID" then .str "pid"
  else if name = "walletAddress" then .str "0xabc"
  else .str ""

/-- C6: the numeric RPC results are decoded by base-16 integer parsing of
the hex `result` field: a `getBlockNumber` run against a mock transport
answering `{"result":"0x10"}` outputs decodedData 16, and a
`getTransactionCount` run against `{"result":"0x2a"}` (the builder uses
the `"pending"` default tag) outputs decodedData 42. -/
theorem hexDecode_mockResponses :
    (executeMain wBlockNumber paramsBlockNumber 1).1 =
      .ok [some (.obj [("decodedData", .num 16)])] ∧
    (executeMain wTxCount paramsTxCount 1).1 =
      .ok [some (.obj [("decodedData", .num 42)])] ∧
    jsParseInt16 "0x10" = some 16 ∧
    jsParseInt16 "0x2a" = some 42 :=
  ⟨rfl, rfl, rfl, rfl⟩

/-- The spec's worked-example ABI: one `view` function `foo` with no
inputs and one event `Bar`. -/
def exampleAbi : Json := .arr [
  .obj [("type", .str "function"), ("name", .str "foo"),
    ("stateMutability", .str "view"), ("inputs", .arr [])],
  .obj [("type", .str "event"), ("name", .str "Bar")]]

/-- An ABI with two function entries sharing the name `f` (an overload,
as ABIs permit). -/
def dupAbi : Json := .arr [
  .obj [("type", .str "function"), ("name", .str "f"),
    ("stateMutability", .str "view"), ("inputs", .arr [])],
  .obj [("type", .str "function"), ("name", .str "f"),
    ("stateMutability", .str "nonpayable"),
    ("inputs", .arr [.obj [("name", .str "x")]])]]

/-- C1 counterexample: on an ABI with two function entries named `f`, the
method listing returns the name twice, so it is not "the ordered set of
distinct names" the claim prescribes (compare `specDistinctMethodNames`,
which follows the claim's words). -/
theorem getContractMethods_distinct_cex :
    ((functionOptions dupAbi).map (fun o => o.name.asString)) = ["f", "f"] ∧
    specDistinctMethodNames dupAbi = ["f"] ∧
    ((functionOptions dupAbi).map (fun o => o.name.asString)) ≠
      specDistinctMethodNames dupAbi := by
  refine ⟨rfl, rfl, ?_⟩
  decide

/-- C1 amended: the method listing (which supports no mutability filter —
the code never reads `stateMutability`) returns the ordered list of the
names of exactly the entries whose `type` is `"function"`, duplicates
preserved; on the spec's example ABI it is exactly `["foo"]` (the event
`Bar` excluded). -/
theorem getContractMethods_amended :
    (∀ json : Json,
      (functionOptions json).map (fun o => o.name) =
        (json.elems.filter (fun e => (e.field "type").isStr "function")).map
          (fun e => e.field "name")) ∧
    (functionOptions exampleAbi).map (fun o => o.name) = [.str "foo"] := by
  constructor
  · intro json
    show ((json.elems.foldl _ []).map _ = _)
    rw [foldl_pushIf (fun e => (e.field "type").isStr "function")
      (fun e => ({ name := e.field "name", value := e.field "name" } : PropertyOption))
      json.elems []]
    simp [List.map_map, Function.comp]
  · rfl

/-- An ABI with a function `g` whose inputs are named `x` then `y`. -/
def xyAbi : Json := .arr [
  .obj [("type", .str "function"), ("name", .str "g"),
    ("inputs", .arr [.obj [("name", .str "x")], .obj [("name", .str "y")]])]]

/-- The single entry of `xyAbi`. -/
def xyEntry : Json :=
  .obj [("type", .str "function"), ("name", .str "g"),
    ("inputs", .arr [.obj [("name", .str "x")], .obj [("name", .str "y")]])]

/-- C7: the input listing for a chosen function name returns the ordered
sequence of that function's input parameter names — when the ABI has
exactly one function entry of that name, the options are its `inputs`
names in order; when no function entry matches, the listing is empty.
On the spec's examples: `foo` (no inputs) gives `[]`, a function with
inputs `x`, `y` gives `["x","y"]` in order, and an unknown name gives
`[]`. -/
theorem getContractInputs_listing :
    (∀ (json : Json) (m : String) (e : Json),
        json.elems.filter
            (fun el => (el.field "type").isStr "function" &&
              (el.field "name").isStr m) = [e] →
        (NodeProvider.inputOptions json m).map (fun o => o.name) =
          (e.field "inputs").elems.map (fun input => input.field "name")) ∧
    (∀ (json : Json) (m : String),
        json.elems.filter
            (fun el => (el.field "type").isStr "function" &&
              (el.field "name").isStr m) = [] →
        NodeProvider.inputOptions json m = []) ∧
    NodeProvider.inputOptions exampleAbi "foo" = [] ∧
    (NodeProvider.inputOptions xyAbi "g").map (fun o => o.name) =
      [.str "x", .str "y"] ∧
    NodeProvider.inputOptions exampleAbi "nosuch" = [] := by
  have hfold : ∀ (json : Json) (m : String),
      NodeProvider.inputOptions json m =
        (json.elems.filter
            (fun el => (el.field "type").isStr "function" &&
              (el.field "name").isStr m)).flatMap
          (fun e => (e.field "inputs").elems.map
            (fun input =>
              ({ name := input.field "name", value := input.field "name" } :
                PropertyOption))) := by
    intro json m
    show (json.elems.foldl _ [] = _)
    rw [foldl_appendIf
      (fun el => (el.field "type").isStr "function" && (el.field "name").isStr m)
      (fun e => (e.field "inputs").elems.map
        (fun input =>
          ({ name := input.field "name", value := input.field "name" } :
            PropertyOption)))
      json.elems []]
    simp
  refine ⟨?_, ?_, rfl, rfl, rfl⟩
  · intro json m e h
    rw [hfold, h]
    simp [List.map_map, Function.comp]
  · intro json m h
    rw [hfold, h]
    rfl

/-- Witness for C7 at concrete inputs. -/
theorem getContractInputs_listing_witness :
    (NodeProvider.inputOptions xyAbi "g").map (fun o => o.name) =
      (xyEntry.field "inputs").elems.map (fun input => input.field "name") ∧
    NodeProvider.inputOptions xyAbi "h" = [] :=
  ⟨getContractInputs_listing.1 xyAbi "g" xyEntry rfl,
   getContractInputs_listing.2.1 xyAbi "h" rfl⟩

/-- C3: whenever the `eth_call` operation runs on at least one input item
and the `contractABI` parameter text is rejected by `JSON.parse`, the
dispatcher aborts with the `Invalid JSON` error and the HTTP transport
is never invoked: the whole invocation's request trace is empty. -/
theorem ethCall_invalidJSON_noRequest (w : World) (params : Params) (items : Nat)
    (err : String)
    (hitems : 0 < items)
    (hop : (params "operation" 0).asString = "eth_call")
    (habi : w.jsonParse ((params "contractABI" 0).asString) = .error err) :
    executeMain w params items = (.error .invalidJSON, []) := by
  cases items with
  | zero => exact absurd hitems (by decide)
  | succ n =>
      simp only [executeMain, execLoopMain, executeItemMain, hop, habi, validateJSON]
      rw [if_neg (by decide : ¬("eth_call" = "eth_blockNumber")),
        if_neg (by decide : ¬("eth_call" = "eth_getBlockByNumber"))]
      simp

/-- A world whose `JSON.parse` rejects every string. -/
def wBadParse : World :=
  { credentials := some { projectSecret := "sec" },
    transport := fun _ => .obj [("result", .str "0x1")],
    jsonParse := fun _ => .error "Unexpected token",
    ethers := ethersDummy }

/-- Parameters selecting `eth_call` with an unparsable ABI text. -/
def paramsCallBadAbi : Params := fun name _ =>
  if name = "operation" then .str "eth_call"
  else if name = "ETHNetwork" then .str "mainnet"
  else if name = "projectID" then .str "pid"
  else if name = "contractABI" then .str "not json"
  else .str ""

/-- Witness for C3 at concrete inputs. -/
theorem ethCall_invalidJSON_noRequest_witness :
    executeMain wBadParse paramsCallBadAbi 1 = (.error .invalidJSON, []) :=
  ethCall_invalidJSON_noRequest wBadParse paramsCallBadAbi 1 "Unexpected token"
    (by decide) rfl rfl

/-- An `ethers` stand-in whose transaction signature records the gas
values actually placed in the transaction. -/
def ethersGasProbe : EthersLib :=
  { encodeFunctionData := fun _ _ _ => "CALLDATA",
    decodeFunctionResult := fun _ _ r => r,
    walletFromMnemonic := fun s => { key := s },
    walletFromPrivateKey := fun s => { key := s },
    signTransaction := fun _ tx =>
      "gasPrice=" ++ toString tx.gasPrice ++ ";gasLimit=" ++ toString tx.gasLimit }

/-- A world with credentials, an always-succeeding parser returning the
empty ABI array, and the gas-probing `ethers` stand-in. -/
def wGasProbe : World :=
  { credentials := some { projectSecret := "sec" },
    transport := fun _ => .obj [("result", .str "0x1")],
    jsonParse := fun _ => .ok (.arr []),
    ethers := ethersGasProbe }

/-- Parameters selecting `eth_sendRawTransaction` with user-supplied gas
values 7 and 8. -/
def paramsSendRaw : Params := fun name _ =>
  if name = "operation" then .str "eth_sendRawTransaction"
  else if name = "ETHNetwork" then .str "mainnet"
  else if name = "projectID" then .str "pid"
  else if name = "contractAddress" then .str "0xc"
  else if name = "walletAddress" then .str "0xw"
  else if name = "gasPrice" then .str "7"
  else if name = "gasLimit" then .str "8"
  else if name = "contractABI" then .str "[]"
  else .str ""

/-- C8 counterexample: in the oldest revision's `execute`, with the user
supplying gasPrice 7 and gasLimit 8, the raw transaction actually signed
and submitted carries the hard-coded constants 2000000000 and 185000 —
the user-supplied values are read but never placed in the transaction. -/
theorem sendRawTransaction_gas_cex :
    paramsSendRaw "gasPrice" 0 = .str "7" ∧
    paramsSendRaw "gasLimit" 0 = .str "8" ∧
    (NodeOld.execute wGasProbe paramsSendRaw 1).2 =
      [{ method := "POST", qs := .obj [],
         body := rpcEnvelope "eth_sendRawTransaction"
           [.str "gasPrice=2000000000;gasLimit=185000"],
         uri := infuraUri "mainnet" "pid", headers := [], auth := none,
         json := true }] ∧
    "gasPrice=2000000000;gasLimit=185000" ≠ "gasPrice=7;gasLimit=8" := by
  refine ⟨rfl, rfl, rfl, by decide⟩

/-- C8 amended: in the main revision's `eth_sendRawTransaction` branch
(with credentials present and a parsable ABI), exactly two requests are
issued — the nonce fetch and the submission — and the submitted raw
transaction is the signature of a transaction whose gasPrice and
gasLimit are exactly the gasPrice/gasLimit parameter values resolved for
the current item (the node descriptor declares the constants 45 and
21000 as their defaults, so the defaults apply unless the user supplies
values), whose recipient is the contract address, and whose nonce is the
raw nonce response; in the oldest revision the hard-coded constants
2000000000/185000 are used instead (see the counterexample).  Moreover
the provider revision resolves an absent or unparsable `contractInputs`
parameter to the empty input list for the contract-call encoding. -/
theorem sendRawTransaction_gas_amended (w : World) (params : Params)
    (net pid wa : String) (i : Nat) (rd : Option Json)
    (c : Credentials) (abi : Json)
    (hc : w.credentials = some c)
    (habi : w.jsonParse ((params "contractABI" 0).asString) = .ok abi) :
    (∃ (nonceReq sendReq : HttpRequest) (wallet : Wallet) (tx : Tx),
      (executeItemMain w params "eth_sendRawTransaction" net pid wa i rd).2 =
        [nonceReq, sendReq] ∧
      nonceReq.body =
        rpcEnvelope "eth_getTransactionCount" [.str wa, .str "pending"] ∧
      sendReq.body = rpcEnvelope "eth_sendRawTransaction"
        [.str (w.ethers.signTransaction wallet tx)] ∧
      tx.gasPrice = (params "gasPrice" i).asInt ∧
      tx.gasLimit = (params "gasLimit" i).asInt ∧
      tx.«to» = (params "contractAddress" 0).asString ∧
      tx.nonce = w.transport nonceReq) ∧
    (∀ (parse : String → Except String Json) (raw : Json),
      validateJSONval parse raw = none →
      NodeProvider.resolveContractInputs parse raw = .arr []) := by
  constructor
  · simp only [executeItemMain]
    rw [if_neg (by decide : ¬("eth_sendRawTransaction" = "eth_blockNumber")),
      if_neg (by decide : ¬("eth_sendRawTransaction" = "eth_getBlockByNumber")),
      if_neg (by decide : ¬("eth_sendRawTransaction" = "eth_call"))]
    rw [if_pos trivial]
    simp only [validateJSON, habi, hc, ethGetTransactionCount, ethSendRawTransaction]
    exact ⟨_, _, _, _, rfl, rfl, rfl, rfl, rfl, rfl, rfl⟩
  · intro parse raw h
    simp [NodeProvider.resolveContractInputs, h, NodeProvider.jsFalsy]

/-- Witness for C8 (amended) at concrete inputs: the branch issues
exactly the nonce fetch and the submission. -/
theorem sendRawTransaction_gas_amended_witness :
    ((executeItemMain wGasProbe paramsSendRaw "eth_sendRawTransaction" "mainnet" "pid"
        "0xw" 0 none).2).length = 2 := by
  obtain ⟨nr, sr, wlt, tx, htrace, -, -, -, -, -, -⟩ :=
    (sendRawTransaction_gas_amended wGasProbe paramsSendRaw "mainnet" "pid" "0xw" 0 none
      { projectSecret := "sec" } (.arr []) rfl rfl).1
  rw [htrace]
  rfl

/-- The parameters `execute` (main revision) reads only at item index 0. -/
def itemZeroNames : List String :=
  ["operation", "ETHNetwork", "projectID", "walletAddress", "contractAddress",
   "contractABI"]

/-- All per-item parameter reads of `executeItemMain` are of names outside
`itemZeroNames`, and its index-0 reads are of names inside it, so two
parameter assignments that agree at index 0 on the item-0 names and
everywhere on the other names drive one iteration identically. -/
theorem executeItemMain_params_congr (w : World) (p1 p2 : Params)
    (op net pid wa : String) (i : Nat) (rd : Option Json)
    (h0 : ∀ name, name ∈ itemZeroNames → p1 name 0 = p2 name 0)
    (hrest : ∀ name j, name ∉ itemZeroNames → p1 name j = p2 name j) :
    executeItemMain w p1 op net pid wa i rd = executeItemMain w p2 op net pid wa i rd := by
  have hbn := hrest "blockNumber" i (by decide)
  have hst := hrest "showTransactionDetails" i (by decide)
  have hca := h0 "contractAddress" (by decide)
  have hcm := hrest "contractMethod" i (by decide)
  have hci := hrest "contractInputs" i (by decide)
  have habi := h0 "contractABI" (by decide)
  have hmn := hrest "accessWalletByMnemonic" i (by decide)
  have hwm := hrest "walletMnemonic" i (by decide)
  have hwp := hrest "walletPrivateKey" i (by decide)
  have hgp := hrest "gasPrice" i (by decide)
  have hgl := hrest "gasLimit" i (by decide)
  simp only [executeItemMain, hbn, hst, hca, hcm, hci, habi, hmn, hwm, hwp, hgp, hgl]

/-- The per-item loop preserves the parameter congruence of
`executeItemMain_params_congr`. -/
theorem execLoopMain_params_congr (w : World) (p1 p2 : Params)
    (op net pid wa : String)
    (h0 : ∀ name, name ∈ itemZeroNames → p1 name 0 = p2 name 0)
    (hrest : ∀ name j, name ∉ itemZeroNames → p1 name j = p2 name j) :
    ∀ (remaining i : Nat) (rd : Option Json) (acc : List (Option Json))
      (reqs : List HttpRequest),
      execLoopMain w p1 op net pid wa i remaining rd acc reqs =
        execLoopMain w p2 op net pid wa i remaining rd acc reqs := by
  intro remaining
  induction remaining with
  | zero => intro i rd acc reqs; rfl
  | succ n ih =>
      intro i rd acc reqs
      simp only [execLoopMain]
      rw [executeItemMain_params_congr w p1 p2 op net pid wa i rd h0 hrest]
      rcases h : executeItemMain w p2 op net pid wa i rd with ⟨res, ireqs⟩
      cases res with
      | error e => rfl
      | ok rd2 => exact ih (i + 1) rd2 (pushResponse acc rd2) (reqs ++ ireqs)

/-- C9 amended: in the main revision, the operation, network, project id,
wallet address, contract address and contract ABI are read only at item
index 0, so two parameter assignments that agree on those six names at
index 0 and agree everywhere on all other names — i.e. that may differ
arbitrarily on the six item-0 names at indices other than 0 — produce
identical `execute` results and identical request traces.  (In the
earlier `NodeRpc` revision this fails for `walletAddress`; see the
counterexample.) -/
theorem itemZero_noninterference (w : World) (p1 p2 : Params) (items : Nat)
    (h0 : ∀ name, name ∈ itemZeroNames → p1 name 0 = p2 name 0)
    (hrest : ∀ name j, name ∉ itemZeroNames → p1 name j = p2 name j) :
    executeMain w p1 items = executeMain w p2 items := by
  have hop := h0 "operation" (by decide)
  have hnet := h0 "ETHNetwork" (by decide)
  have hpid := h0 "projectID" (by decide)
  have hwa := h0 "walletAddress" (by decide)
  simp only [executeMain, hop, hnet, hpid, hwa]
  exact execLoopMain_params_congr w p1 p2 _ _ _ _ h0 hrest items 0 none [] []

/-- A variant of `paramsBlockNumber` that changes the `operation`
parameter only at item index 1 (an index the code never reads it at). -/
def paramsBlockNumberVar : Params := fun name i =>
  if name = "operation" ∧ i = 1 then .str "eth_call" else paramsBlockNumber name i

/-- Witness for C9 (amended) at concrete inputs. -/
theorem itemZero_noninterference_witness :
    executeMain wBlockNumber paramsBlockNumber 2 =
      executeMain wBlockNumber paramsBlockNumberVar 2 := by
  apply itemZero_noninterference
  · intro name hname
    simp [paramsBlockNumberVar]
  · intro name j hname
    by_cases hn : name = "operation" ∧ j = 1
    · rcases hn with ⟨rfl, rfl⟩
      exact absurd (by decide) hname
    · simp [paramsBlockNumberVar, hn]

/-- Parameters for the earlier revision selecting
`eth_getTransactionCount` with wallet address `W0`. -/
def paramsRpcCount : Params := fun name _ =>
  if name = "operation" then .str "eth_getTransactionCount"
  else if name = "ETHNetwork" then .str "mainnet"
  else if name = "projectID" then .str "pid"
  else if name = "walletAddress" then .str "W0"
  else if name = "transactionTag" then .str "pending"
  else .str ""

/-- A variant of `paramsRpcCount` that changes `walletAddress` — one of
the names the claim says is resolved once at item index 0 — only at item
index 1. -/
def paramsRpcCountVar : Params := fun name i =>
  if name = "walletAddress" ∧ i = 1 then .str "W1" else paramsRpcCount name i

/-- The first entry of the `params` array of the second request of a
trace (the queried wallet address of an `eth_getTransactionCount`
request). -/
def secondReqFirstParam (l : List HttpRequest) : String :=
  match l with
  | _ :: r :: _ => ((r.body.field "params").elems.headD .null).asString
  | _ => ""

/-- C9 counterexample: in the earlier (`NodeRpc`) revision, varying the
`walletAddress` parameter at item index 1 only — the claim says this can
have no effect, `walletAddress` being resolved once from index 0 — does
change the second request sent: the `eth_getTransactionCount` branch
re-resolves `walletAddress` at the current item index. -/
theorem itemZero_noninterference_cex :
    paramsRpcCount "walletAddress" 0 = paramsRpcCountVar "walletAddress" 0 ∧
    paramsRpcCount "walletAddress" 1 ≠ paramsRpcCountVar "walletAddress" 1 ∧
    secondReqFirstParam (NodeRpc.execute wGasProbe paramsRpcCount 2).2 = "W0" ∧
    secondReqFirstParam (NodeRpc.execute wGasProbe paramsRpcCountVar 2).2 = "W1" ∧
    (NodeRpc.execute wGasProbe paramsRpcCount 2).2 ≠
      (NodeRpc.execute wGasProbe paramsRpcCountVar 2).2 := by
  refine ⟨rfl, ?_, rfl, rfl, ?_⟩
  · intro h
    exact absurd (congrArg Json.asString h) (by decide)
  · intro h
    exact absurd (congrArg secondReqFirstParam h) (by decide)

/-- The direct-mode request shape the spec prescribes: a POST to the
given url whose body is a JSON-RPC 2.0 envelope, authenticated either by
basic auth with empty user and the project secret as password, or by an
`Authorization: Basic base64(secret)` header. -/
def directShapeAt (url secret : String) (r : HttpRequest) : Prop :=
  r.method = "POST" ∧ r.uri = url ∧ (∃ m ps, r.body = rpcEnvelope m ps) ∧
  (r.auth = some ("", secret) ∨
    r.headers = [("Authorization", "Basic " ++ base64 secret)])

/-- Every request of one `NodeRpc` loop iteration has the direct-mode
shape for the loop's url and the stored project secret. -/
theorem nodeRpc_executeItem_shape (w : World) (params : Params)
    (op url wa : String) (i : Nat) (rd : Option Json) (c : Credentials)
    (hc : w.credentials = some c) :
    ∀ r ∈ (NodeRpc.executeItem w params op url wa i rd).2,
      directShapeAt url c.projectSecret r := by
  intro r hr
  by_cases h1 : op = "eth_blockNumber"
  · subst h1
    simp only [NodeRpc.executeItem, if_pos rfl, NodeRpc.infuraApiRequest, hc] at hr
    rw [List.mem_singleton.mp hr]
    exact ⟨rfl, rfl, ⟨"eth_blockNumber", [], rfl⟩, Or.inl rfl⟩
  · by_cases h2 : op = "eth_getBlockByNumber"
    · subst h2
      simp only [NodeRpc.executeItem, if_neg (by decide :
          ¬("eth_getBlockByNumber" = "eth_blockNumber")), if_pos rfl,
        NodeRpc.infuraApiRequest, hc] at hr
      rw [List.mem_singleton.mp hr]
      exact ⟨rfl, rfl, ⟨"eth_getBlockByNumber", _, rfl⟩, Or.inl rfl⟩
    · by_cases h3 : op = "eth_call"
      · subst h3
        simp only [NodeRpc.executeItem, if_neg (by decide :
            ¬("eth_call" = "eth_blockNumber")), if_neg (by decide :
            ¬("eth_call" = "eth_getBlockByNumber")), if_pos rfl] at hr
        rcases hv : validateJSON w.jsonParse
            (some ((params "contractABI" 0).asString)) with _ | abi
        · rw [hv] at hr
          simp at hr
        · rw [hv] at hr
          simp only [NodeRpc.infuraApiRequest, hc] at hr
          rw [List.mem_singleton.mp hr]
          exact ⟨rfl, rfl, ⟨"eth_call", _, rfl⟩, Or.inl rfl⟩
      · by_cases h4 : op = "eth_sendRawTransaction"
        · subst h4
          simp only [NodeRpc.executeItem, if_neg (by decide :
              ¬("eth_sendRawTransaction" = "eth_blockNumber")), if_neg (by decide :
              ¬("eth_sendRawTransaction" = "eth_getBlockByNumber")),
            if_neg (by decide : ¬("eth_sendRawTransaction" = "eth_call")),
            if_pos rfl] at hr
          rcases hv : validateJSON w.jsonParse
              (some ((params "contractABI" 0).asString)) with _ | abi
          · rw [hv] at hr
            simp at hr
          · rw [hv] at hr
            simp only [NodeRpc.getNonce, NodeRpc.infuraApiRequest, hc] at hr
            rcases List.mem_append.mp hr with h | h
            · rw [List.mem_singleton.mp h]
              exact ⟨rfl, rfl, ⟨"eth_getTransactionCount", _, rfl⟩, Or.inl rfl⟩
            · rw [List.mem_singleton.mp h]
              exact ⟨rfl, rfl, ⟨"eth_sendRawTransaction", _, rfl⟩, Or.inl rfl⟩
        · by_cases h5 : op = "eth_getTransactionCount"
          · subst h5
            simp only [NodeRpc.executeItem, if_neg (by decide :
                ¬("eth_getTransactionCount" = "eth_blockNumber")),
              if_neg (by decide :
                ¬("eth_getTransactionCount" = "eth_getBlockByNumber")),
              if_neg (by decide : ¬("eth_getTransactionCount" = "eth_call")),
              if_neg (by decide :
                ¬("eth_getTransactionCount" = "eth_sendRawTransaction")),
              if_pos rfl, NodeRpc.infuraApiRequest, hc] at hr
            rw [List.mem_singleton.mp hr]
            exact ⟨rfl, rfl, ⟨"eth_getTransactionCount", _, rfl⟩, Or.inl rfl⟩
          · simp only [NodeRpc.executeItem, if_neg h1, if_neg h2, if_neg h3,
              if_neg h4, if_neg h5] at hr
            simp at hr

/-- The `NodeRpc` loop only adds requests of the direct-mode shape to the
trace. -/
theorem nodeRpc_execLoop_shape (w : World) (params : Params)
    (op url wa : String) (c : Credentials)
    (hc : w.credentials = some c) :
    ∀ (remaining i : Nat) (rd : Option Json) (acc : List (Option Json))
      (reqs : List HttpRequest),
      (∀ r ∈ reqs, directShapeAt url c.projectSecret r) →
      ∀ r ∈ (NodeRpc.execLoop w params op url wa i remaining rd acc reqs).2,
        directShapeAt url c.projectSecret r := by
  intro remaining
  induction remaining with
  | zero => intro i rd acc reqs hreqs r hr; exact hreqs r hr
  | succ n ih =>
      intro i rd acc reqs hreqs r hr
      simp only [NodeRpc.execLoop] at hr
      rcases hitem : NodeRpc.executeItem w params op url wa i rd with ⟨res, ireqs⟩
      have hsnd : (NodeRpc.executeItem w params op url wa i rd).2 = ireqs := by
        rw [hitem]
      have hall : ∀ r2 ∈ reqs ++ ireqs, directShapeAt url c.projectSecret r2 := by
        intro r2 hr2
        rcases List.mem_append.mp hr2 with h | h
        · exact hreqs r2 h
        · exact nodeRpc_executeItem_shape w params op url wa i rd c hc r2 (hsnd ▸ h)
      rw [hitem] at hr
      cases res with
      | error e => exact hall r hr
      | ok rd2 => exact ih (i + 1) rd2 (pushResponse acc rd2) (reqs ++ ireqs) hall r hr

/-- C5: every direct-mode RPC request built by the request builders is a
POST of the exact envelope `{method, id: 1, jsonrpc: "2.0", params}` to
exactly `https://<network>.infura.io/v3/<projectId>`, authenticated
either by basic auth with empty user and the project secret as password
(the `infuraApiRequest` revision, covering every request its `execute`
dispatcher ever issues) or by an `Authorization: Basic base64(secret)`
header (the `GenericFunctions.ts` builders). -/
theorem directMode_requestShape :
    (∀ transport net pid a b d (c : Credentials),
        ∀ r ∈ (ethCallRequest (some c) transport net pid a b d).2,
          directShapeAt (infuraUri net pid) c.projectSecret r) ∧
    (∀ transport net pid s (c : Credentials),
        ∀ r ∈ (ethSendRawTransaction (some c) transport net pid s).2,
          directShapeAt (infuraUri net pid) c.projectSecret r) ∧
    (∀ transport net pid addr tag (c : Credentials),
        ∀ r ∈ (ethGetTransactionCount (some c) transport net pid addr tag).2,
          directShapeAt (infuraUri net pid) c.projectSecret r) ∧
    (∀ transport net pid (c : Credentials),
        ∀ r ∈ (ethBlockNumber (some c) transport net pid).2,
          directShapeAt (infuraUri net pid) c.projectSecret r) ∧
    (∀ transport net pid bn std (c : Credentials),
        ∀ r ∈ (ethGetBlockByNumber (some c) transport net pid bn std).2,
          directShapeAt (infuraUri net pid) c.projectSecret r) ∧
    (∀ (w : World) (params : Params) (items : Nat) (c : Credentials),
        w.credentials = some c →
        ∀ r ∈ (NodeRpc.execute w params items).2,
          directShapeAt
            (infuraUri ((params "ETHNetwork" 0).asString)
              ((params "projectID" 0).asString))
            c.projectSecret r) := by
  refine ⟨?_, ?_, ?_, ?_, ?_, ?_⟩
  · intro transport net pid a b d c r hr
    simp only [ethCallRequest] at hr
    rw [List.mem_singleton.mp hr]
    exact ⟨rfl, rfl, ⟨"eth_call", _, rfl⟩, Or.inr rfl⟩
  · intro transport net pid s c r hr
    simp only [ethSendRawTransaction] at hr
    rw [List.mem_singleton.mp hr]
    exact ⟨rfl, rfl, ⟨"eth_sendRawTransaction", _, rfl⟩, Or.inr rfl⟩
  · intro transport net pid addr tag c r hr
    simp only [ethGetTransactionCount] at hr
    rw [List.mem_singleton.mp hr]
    exact ⟨rfl, rfl, ⟨"eth_getTransactionCount", _, rfl⟩, Or.inr rfl⟩
  · intro transport net pid c r hr
    simp only [ethBlockNumber] at hr
    rw [List.mem_singleton.mp hr]
    exact ⟨rfl, rfl, ⟨"eth_blockNumber", [], rfl⟩, Or.inr rfl⟩
  · intro transport net pid bn std c r hr
    simp only [ethGetBlockByNumber] at hr
    rw [List.mem_singleton.mp hr]
    exact ⟨rfl, rfl, ⟨"eth_getBlockByNumber", _, rfl⟩, Or.inr rfl⟩
  · intro w params items c hc r hr
    simp only [NodeRpc.execute] at hr
    exact nodeRpc_execLoop_shape w params _ _ _ c hc items 0 none [] []
      (by intro r2 hr2; cases hr2) r hr

/-- Witness for C5: the request built by a concrete `ethBlockNumber` call
has the direct-mode shape, and so does the request of a concrete
`NodeRpc` run. -/
theorem directMode_requestShape_witness :
    directShapeAt (infuraUri "mainnet" "pid") "sec"
      { method := "POST", qs := .obj [],
        body := rpcEnvelope "eth_blockNumber" [],
        uri := infuraUri "mainnet" "pid",
        headers := [("Authorization", "Basic " ++ base64 "sec")],
        auth := none, json := true } ∧
    directShapeAt (infuraUri "mainnet" "pid") "sec"
      { method := "POST", qs := .obj [],
        body := rpcEnvelope "eth_getTransactionCount"
          [.str "W0", .str "pending"],
        uri := infuraUri "mainnet" "pid",
        headers := [], auth := some ("", "sec"), json := true } :=
  ⟨directMode_requestShape.2.2.2.1 (fun _ => .null) "mainnet" "pid"
      { projectSecret := "sec" } _ (List.Mem.head _),
   (directMode_requestShape.2.2.2.2.2 wGasProbe paramsRpcCount 1
      { projectSecret := "sec" } rfl) _ (List.Mem.head _)⟩

/-- A world in which the credential store resolves nothing. -/
def wNoCreds : World :=
  { credentials := none,
    transport := fun _ => .obj [("result", .str "0x1")],
    jsonParse := fun _ => .ok (.arr []),
    ethers := ethersDummy }

/-- Witness for C4 at concrete inputs: a credential-less
`eth_blockNumber` run and a credential-less `eth_sendRawTransaction` run
both abort with the missing-credentials error and an empty request
trace. -/
theorem missingCredentials_noRequest_witness :
    executeMain wNoCreds paramsBlockNumber 1 = (.error .noCredentials, []) ∧
    executeMain wNoCreds paramsSendRaw 1 = (.error .noCredentials, []) := by
  obtain ⟨-, -, -, -, -, -, -, h8, -, -, -, h12⟩ := missingCredentials_noRequest
  exact ⟨h8 wNoCreds paramsBlockNumber 1 rfl (by decide) rfl,
    h12 wNoCreds paramsSendRaw 1 (.arr []) rfl (by decide) rfl rfl⟩
